import Mathlib

/-!
Verification of the genui-widget streaming/persistence core.

The TypeScript sources are embedded shallowly:
* text is modelled as `List Char` (network chunks are taken after UTF-8
  decoding, which the sources perform with a stream-mode TextDecoder);
* `JSON.parse` is an environment primitive, so decoding functions take an
  arbitrary `parse : Str → Option Json` parameter (`none` models a thrown
  SyntaxError); concrete parse tables instantiate it in witnesses;
* the push-based ReadableStream bodies become folds over the chunk list,
  with the controller output collected in an ordered list.
-/

namespace GenUI

/-- Text, modelled as a list of characters. -/
abbrev Str := List Char

/-- Convert a Lean string literal to the character-list text model. -/
def jstr (s : String) : Str := s.data

/-- JSON document model (numbers restricted to integers; no claim under
verification involves non-integral numbers). -/
inductive Json where
  | str (s : String)
  | num (n : Int)
  | jbool (b : Bool)
  | null
  | arr (elems : List Json)
  | obj (fields : List (String × Json))

/-- JavaScript truthiness of a JSON value: empty strings, zero, false and
null are falsy; arrays and objects are always truthy. -/
def jsTruthy : Json → Bool
  | .str s => !s.isEmpty
  | .num n => n != 0
  | .jbool b => b
  | .null => false
  | .arr _ => true
  | .obj _ => true

/-- Property access `v[k]` on a JSON value: only objects have named
properties, every other value yields undefined (`none`). `JSON.parse`
output has unique keys, so first-match lookup is faithful. -/
def getProp (v : Json) (k : String) : Option Json :=
  match v with
  | .obj fields => fields.lookup k
  | _ => none

/-- Property access that also demands a truthy value, as in the pervasive
`if (x.field)` patterns of the sources. -/
def truthyProp (v : Json) (k : String) : Option Json :=
  match getProp v k with
  | some w => if jsTruthy w then some w else none
  | none => none

/-- Array element access `v[i]`; undefined (`none`) when out of range or
not an array. -/
def getElem? (v : Json) (i : Nat) : Option Json :=
  match v with
  | .arr elems => elems.get? i
  | _ => none

/-- Opening brace character. -/
def braceL : Char := Char.ofNat 123

/-- Closing brace character. -/
def braceR : Char := Char.ofNat 125

mutual

/-- JavaScript `String(v)` coercion of a JSON value. Array elements are
joined with commas, with null elements rendered empty, per
`Array.prototype.toString`. -/
def jsToString : Json → Str
  | .str s => s.data
  | .num n => (toString n).data
  | .jbool b => if b then jstr "true" else jstr "false"
  | .null => jstr "null"
  | .arr elems => jsToStringElems elems
  | .obj _ => jstr "[object Object]"

/-- Comma-joined `String()` coercion of array elements, with null elements
rendered empty. -/
def jsToStringElems : List Json → Str
  | [] => []
  | [e] => match e with | .null => [] | _ => jsToString e
  | e :: rest =>
      (match e with | .null => [] | _ => jsToString e) ++ ',' :: jsToStringElems rest

end

/-- Hexadecimal digit for a value below 16. -/
def hexDigit (n : Nat) : Char :=
  if n < 10 then Char.ofNat (48 + n) else Char.ofNat (87 + n)

/-- JSON string escaping as performed by `JSON.stringify`. -/
def escapeChar (c : Char) : Str :=
  if c = '"' then ['\\', '"']
  else if c = '\\' then ['\\', '\\']
  else if c = '\n' then ['\\', 'n']
  else if c = '\t' then ['\\', 't']
  else if c = '\r' then ['\\', 'r']
  else if c = Char.ofNat 8 then ['\\', 'b']
  else if c = Char.ofNat 12 then ['\\', 'f']
  else if c.toNat < 32 then
    ['\\', 'u', '0', '0', hexDigit (c.toNat / 16), hexDigit (c.toNat % 16)]
  else [c]

/-- Quoted, escaped JSON string literal. -/
def quoteStr (s : String) : Str :=
  '"' :: (s.data.map escapeChar).flatten ++ ['"']

mutual

/-- Compact `JSON.stringify` serialization of a JSON value. -/
def jsonStringify : Json → Str
  | .str s => quoteStr s
  | .num n => (toString n).data
  | .jbool b => if b then jstr "true" else jstr "false"
  | .null => jstr "null"
  | .arr elems => '[' :: stringifyList elems ++ [']']
  | .obj fields => braceL :: stringifyFields fields ++ [braceR]

/-- Comma-separated serialization of array elements. -/
def stringifyList : List Json → Str
  | [] => []
  | [e] => jsonStringify e
  | e :: rest => jsonStringify e ++ ',' :: stringifyList rest

/-- Comma-separated serialization of object fields. -/
def stringifyFields : List (String × Json) → Str
  | [] => []
  | [(k, v)] => quoteStr k ++ ':' :: jsonStringify v
  | (k, v) :: rest => quoteStr k ++ ':' :: jsonStringify v ++ ',' :: stringifyFields rest

end

/-- Whitespace characters recognized by the model of `String.prototype.trim`
(ASCII whitespace; the claims under verification involve no exotic Unicode
space characters). -/
def isWs (c : Char) : Bool :=
  c = ' ' || c = '\t' || c = '\n' || c = '\r' || c = Char.ofNat 11 || c = Char.ofNat 12

/-- A line is blank exactly when `line.trim()` is falsy in the sources. -/
def isBlank (l : Str) : Bool := l.all isWs

/-- `s.trim()`: strip whitespace from both ends. -/
def jsTrim (l : Str) : Str :=
  ((l.dropWhile isWs).reverse.dropWhile isWs).reverse

/-- Boolean test that `p` occurs at the start of `s`. -/
def strStarts : Str → Str → Bool
  | [], _ => true
  | _ :: _, [] => false
  | p :: ps, c :: cs => p = c && strStarts ps cs

/-- Boolean test that `p` occurs somewhere inside `s` (JS `includes` /
regex literal search). -/
def containsSub (p s : Str) : Bool :=
  match s with
  | [] => decide (p = [])
  | _ :: t => strStarts p s || containsSub p t

/-- `buffer.split("\n")`: split text at newline characters, keeping empty
pieces; always returns at least one piece. -/
def splitNl : Str → List Str
  | [] => [[]]
  | c :: cs =>
      if c = '\n' then [] :: splitNl cs
      else
        match splitNl cs with
        | [] => [[c]]
        | l :: ls => (c :: l) :: ls

theorem splitNl_ne_nil (s : Str) : splitNl s ≠ [] := by
  induction s with
  | nil => simp [splitNl]
  | cons c cs ih =>
      simp only [splitNl]
      split
      · simp
      · cases h : splitNl cs with
        | nil => simp
        | cons l ls => simp

/-- Last piece of a piece list (the retained buffer), empty for an empty
list; `lines.pop() || ""` in the sources. -/
def lastPart : List Str → Str
  | [] => []
  | [x] => x
  | _ :: x :: xs => lastPart (x :: xs)

theorem lastPart_cons_cons (x y : Str) (ys : List Str) :
    lastPart (x :: y :: ys) = lastPart (y :: ys) := rfl

theorem lastPart_append (l m : List Str) (hm : m ≠ []) :
    lastPart (l ++ m) = lastPart m := by
  induction l with
  | nil => rfl
  | cons x xs ih =>
      cases xs with
      | nil =>
          cases m with
          | nil => exact absurd rfl hm
          | cons y ys => rfl
      | cons y ys => rw [List.cons_append, List.cons_append, lastPart_cons_cons,
          ← List.cons_append, ih]

theorem dropLast_append_ne_nil (l m : List Str) (hm : m ≠ []) :
    (l ++ m).dropLast = l ++ m.dropLast := by
  rw [List.dropLast_append]
  simp [List.isEmpty_iff, hm]

/-- No piece produced by `splitNl` contains a newline. -/
theorem splitNl_no_newline (s : Str) : ∀ p ∈ splitNl s, '\n' ∉ p := by
  induction s with
  | nil => intro p hp; simp [splitNl] at hp; simp [hp]
  | cons c cs ih =>
      intro p hp
      simp only [splitNl] at hp
      split at hp
      · rcases List.mem_cons.mp hp with h | h
        · simp [h]
        · exact ih p h
      · rename_i hc
        cases h : splitNl cs with
        | nil => exact absurd h (splitNl_ne_nil cs)
        | cons l ls =>
            rw [h] at hp
            rcases List.mem_cons.mp hp with h2 | h2
            · subst h2
              intro hmem
              rcases List.mem_cons.mp hmem with h3 | h3
              · exact hc h3.symm
              · exact ih l (by rw [h]; exact List.mem_cons_self l ls) h3
            · exact ih p (by rw [h]; exact List.mem_cons_of_mem l h2)

/-- Splitting a newline-free text yields the single piece itself. -/
theorem splitNl_of_no_newline (s : Str) (h : '\n' ∉ s) : splitNl s = [s] := by
  induction s with
  | nil => rfl
  | cons c cs ih =>
      simp only [List.mem_cons, not_or] at h
      simp only [splitNl]
      rw [if_neg (fun hc => h.1 hc.symm), ih h.2]

/-- Prepend text onto the first piece of a nonempty piece list. -/
def consHead (x : Str) : List Str → List Str
  | [] => [x]
  | h :: t => (x ++ h) :: t

/-- The split of a concatenation: all complete pieces of the left part,
then the splits of the right part with the left leftover glued onto the
first. -/
theorem splitNl_append (a b : Str) :
    splitNl (a ++ b) = (splitNl a).dropLast ++ consHead (lastPart (splitNl a)) (splitNl b) := by
  induction a with
  | nil =>
      cases h : splitNl b with
      | nil => exact absurd h (splitNl_ne_nil b)
      | cons l ls => simp [splitNl, lastPart, consHead, h]
  | cons c cs ih =>
      cases h : splitNl cs with
      | nil => exact absurd h (splitNl_ne_nil cs)
      | cons l ls =>
        rw [h] at ih
        by_cases hc : c = '\n'
        · subst hc
          have e1 : splitNl ('\n' :: (cs ++ b)) = [] :: splitNl (cs ++ b) := by
            simp [splitNl]
          have e2 : splitNl ('\n' :: cs) = [] :: splitNl cs := by
            simp [splitNl]
          rw [List.cons_append, e1, ih, e2, h, List.dropLast_cons₂,
            lastPart_cons_cons, List.cons_append]
        · rw [List.cons_append]
          simp only [splitNl]
          rw [if_neg hc, if_neg hc, ih, h]
          cases ls with
          | nil =>
              cases hb : splitNl b with
              | nil => exact absurd hb (splitNl_ne_nil b)
              | cons m ms => simp [consHead, lastPart, hb]
          | cons l2 ls2 =>
              simp [List.dropLast_cons₂, lastPart_cons_cons, List.cons_append]

namespace WebhookProvider

/-- Fallback probes of `extractContent` in `WebhookProvider.transformStream`:
a string-typed `output` field, then a string-typed `message` field. -/
def extractOutputOrMessage (data : Json) : Option Str :=
  match getProp data "output" with
  | some (.str o) => some o.data
  | _ =>
      match getProp data "message" with
      | some (.str m) => some m.data
      | _ => none

/-- `extractContent` helper of `WebhookProvider.transformStream`: the NDJSON
item shape first, then the plain `output` / `message` shapes. -/
def extractContent (data : Json) : Option Str :=
  match getProp data "type", getProp data "content" with
  | some (.str t), some (.str c) =>
      if t = "item" then some c.data else extractOutputOrMessage data
  | _, _ => extractOutputOrMessage data

/-- One `JSON.parse` plus `extractContent` attempt on a line. The outer
`none` models the thrown-exception path (`JSON.parse` failure, or the
TypeError of a property access when the parsed document is `null`), which
the sources catch and log. -/
def attemptLine (parse : Str → Option Json) (line : Str) : Option (Option Str) :=
  match parse line with
  | none => none
  | some .null => none
  | some data => some (extractContent data)

/-- Mutable state of the NDJSON transform loop. -/
structure StreamState where
  buffer : Str
  hasStreamedContent : Bool
  out : List Str

/-- Body of the per-line loop: skip lines with a falsy `trim()`, otherwise
parse and extract, enqueueing only truthy (non-empty) content. -/
def processLine (parse : Str → Option Json) (st : StreamState) (line : Str) : StreamState :=
  if isBlank line then st
  else
    match attemptLine parse line with
    | some (some content) =>
        if content.isEmpty then st
        else { st with out := st.out ++ [content], hasStreamedContent := true }
    | some none => st
    | none => st

/-- One iteration of the read loop: append the decoded chunk to the buffer,
split on newlines, retain the last piece as the new buffer and process the
complete lines. -/
def feedChunk (parse : Str → Option Json) (st : StreamState) (chunk : Str) : StreamState :=
  let parts := splitNl (st.buffer ++ chunk)
  { parts.dropLast.foldl (processLine parse) st with buffer := lastPart parts }

/-- The end-of-stream step of `transformStream`: parse a non-blank leftover
buffer once more; when that attempt throws, emit the buffer verbatim only
if nothing has been streamed yet in this response. -/
def flushBuffer (parse : Str → Option Json) (st : StreamState) : List Str :=
  if isBlank st.buffer then st.out
  else
    match attemptLine parse st.buffer with
    | some (some content) => if content.isEmpty then st.out else st.out ++ [content]
    | some none => st.out
    | none => if st.hasStreamedContent then st.out else st.out ++ [st.buffer]

/-- Loop state at stream start. -/
def initState : StreamState := ⟨[], false, []⟩

/-- Final loop state after reading every chunk. -/
def feedAll (parse : Str → Option Json) (chunks : List Str) : StreamState :=
  chunks.foldl (feedChunk parse) initState

/-- `WebhookProvider.transformStream` on a full chunked response: the
ordered list of emitted plain-text fragments. -/
def transformStream (parse : Str → Option Json) (chunks : List Str) : List Str :=
  flushBuffer parse (feedAll parse chunks)

theorem lastPart_mem (l : List Str) (h : l ≠ []) : lastPart l ∈ l := by
  induction l with
  | nil => exact absurd rfl h
  | cons x xs ih =>
      cases xs with
      | nil => simp [lastPart]
      | cons y ys =>
          rw [lastPart_cons_cons]
          exact List.mem_cons_of_mem x (ih (by simp))

theorem consHead_ne_nil (x : Str) (l : List Str) : consHead x l ≠ [] := by
  cases l <;> simp [consHead]

/-- The buffer retained by `splitNl` never contains a newline, so splitting
it again is the identity. -/
theorem splitNl_lastPart (s : Str) : splitNl (lastPart (splitNl s)) = [lastPart (splitNl s)] :=
  splitNl_of_no_newline _
    (splitNl_no_newline s _ (lastPart_mem _ (splitNl_ne_nil s)))

/-- The per-line step never reads or writes the buffer: its produced
content and flag depend only on the content and flag of the input state. -/
theorem processLine_ignore_buffer (parse : Str → Option Json) (line : Str)
    (s1 s2 : StreamState) (hh : s1.hasStreamedContent = s2.hasStreamedContent)
    (ho : s1.out = s2.out) :
    (processLine parse s1 line).hasStreamedContent =
        (processLine parse s2 line).hasStreamedContent ∧
      (processLine parse s1 line).out = (processLine parse s2 line).out := by
  unfold processLine
  split
  · exact ⟨hh, ho⟩
  · cases attemptLine parse line with
    | none => exact ⟨hh, ho⟩
    | some o =>
        cases o with
        | none => exact ⟨hh, ho⟩
        | some content =>
            by_cases hce : content.isEmpty
            · simp only [hce, if_true]
              exact ⟨hh, ho⟩
            · simp only [hce, if_false]
              exact ⟨rfl, by simp [ho]⟩

theorem foldl_processLine_ignore_buffer (parse : Str → Option Json) (lines : List Str)
    (s1 s2 : StreamState) (hh : s1.hasStreamedContent = s2.hasStreamedContent)
    (ho : s1.out = s2.out) :
    (lines.foldl (processLine parse) s1).hasStreamedContent =
        (lines.foldl (processLine parse) s2).hasStreamedContent ∧
      (lines.foldl (processLine parse) s1).out = (lines.foldl (processLine parse) s2).out := by
  induction lines generalizing s1 s2 with
  | nil => exact ⟨hh, ho⟩
  | cons l ls ih =>
      have h1 := processLine_ignore_buffer parse l s1 s2 hh ho
      exact ih _ _ h1.1 h1.2

/-- Feeding two chunks in sequence is the same as feeding their
concatenation: the partial-line buffer makes the loop a homomorphism. -/
theorem feedChunk_append (parse : Str → Option Json) (st : StreamState) (c1 c2 : Str) :
    feedChunk parse (feedChunk parse st c1) c2 = feedChunk parse st (c1 ++ c2) := by
  unfold feedChunk
  have hsplit2 : splitNl (lastPart (splitNl (st.buffer ++ c1)) ++ c2) =
      consHead (lastPart (splitNl (st.buffer ++ c1))) (splitNl c2) := by
    rw [splitNl_append, splitNl_lastPart]
    rfl
  have hsplit : splitNl (st.buffer ++ (c1 ++ c2)) =
      (splitNl (st.buffer ++ c1)).dropLast ++
        consHead (lastPart (splitNl (st.buffer ++ c1))) (splitNl c2) := by
    rw [← List.append_assoc, splitNl_append]
  simp only [hsplit2, hsplit]
  rw [dropLast_append_ne_nil _ _ (consHead_ne_nil _ _),
    lastPart_append _ _ (consHead_ne_nil _ _), List.foldl_append]
  have hfold := foldl_processLine_ignore_buffer parse
    (consHead (lastPart (splitNl (st.buffer ++ c1))) (splitNl c2)).dropLast
    { List.foldl (processLine parse) st (splitNl (st.buffer ++ c1)).dropLast with
        buffer := lastPart (splitNl (st.buffer ++ c1)) }
    (List.foldl (processLine parse) st (splitNl (st.buffer ++ c1)).dropLast) rfl rfl
  simp only [StreamState.mk.injEq, true_and]
  exact ⟨hfold.1, hfold.2⟩

/-- Folding the loop over a chunk list equals feeding the concatenation. -/
theorem foldl_feedChunk (parse : Str → Option Json) (chunks : List Str) (st : StreamState)
    (c : Str) :
    chunks.foldl (feedChunk parse) (feedChunk parse st c) =
      feedChunk parse st (c ++ chunks.flatten) := by
  induction chunks generalizing st c with
  | nil => simp
  | cons d ds ih =>
      rw [List.foldl_cons, ih, feedChunk_append]
      simp

/-- Feeding the empty chunk from an empty buffer is a no-op. -/
theorem feedChunk_init_nil (parse : Str → Option Json) :
    feedChunk parse initState [] = initState := rfl

/-- The final loop state depends only on the concatenation of the chunks. -/
theorem feedAll_eq_flatten (parse : Str → Option Json) (chunks : List Str) :
    feedAll parse chunks = feedChunk parse initState chunks.flatten := by
  cases chunks with
  | nil => simp [feedAll, feedChunk_init_nil]
  | cons c cs =>
      unfold feedAll
      rw [List.foldl_cons, foldl_feedChunk]
      simp

/-- The streamed-content flag is set exactly when some fragment has been
enqueued: it records non-emptiness of the output list. -/
theorem processLine_flag_out (parse : Str → Option Json) (st : StreamState) (line : Str)
    (h : st.hasStreamedContent = !st.out.isEmpty) :
    (processLine parse st line).hasStreamedContent =
      !(processLine parse st line).out.isEmpty := by
  unfold processLine
  split
  · exact h
  · cases attemptLine parse line with
    | none => exact h
    | some o =>
        cases o with
        | none => exact h
        | some content =>
            by_cases hce : content.isEmpty
            · simp only [hce, if_true]
              exact h
            · simp [hce]

theorem foldl_processLine_flag_out (parse : Str → Option Json) (lines : List Str)
    (st : StreamState) (h : st.hasStreamedContent = !st.out.isEmpty) :
    (lines.foldl (processLine parse) st).hasStreamedContent =
      !(lines.foldl (processLine parse) st).out.isEmpty := by
  induction lines generalizing st with
  | nil => exact h
  | cons l ls ih => exact ih _ (processLine_flag_out parse st l h)

theorem feedChunk_flag_out (parse : Str → Option Json) (st : StreamState) (c : Str)
    (h : st.hasStreamedContent = !st.out.isEmpty) :
    (feedChunk parse st c).hasStreamedContent = !(feedChunk parse st c).out.isEmpty := by
  unfold feedChunk
  exact foldl_processLine_flag_out parse _ st h

theorem feedAll_flag_out (parse : Str → Option Json) (chunks : List Str) :
    (feedAll parse chunks).hasStreamedContent = !(feedAll parse chunks).out.isEmpty := by
  unfold feedAll
  induction chunks using List.reverseRecOn with
  | nil => rfl
  | append_singleton cs c ih =>
      rw [List.foldl_append, List.foldl_cons, List.foldl_nil]
      exact feedChunk_flag_out parse _ c ih

/-- C1: for every two chunkings of the same byte sequence, the webhook
NDJSON transform emits the same ordered fragment list (and hence the same
concatenated plain text): the incomplete trailing line is buffered and
prefixed to the next chunk before re-splitting, so records spanning reads
decode identically. -/
theorem ndjson_chunking_invariance (parse : Str → Option Json)
    (chunks1 chunks2 : List Str) (h : chunks1.flatten = chunks2.flatten) :
    transformStream parse chunks1 = transformStream parse chunks2 := by
  unfold transformStream
  rw [feedAll_eq_flatten, feedAll_eq_flatten, h]

/-- Concrete split NDJSON record from the spec's end-to-end scenario. -/
def lineHello : Str := jstr "\x7b\"type\":\"item\",\"content\":\"Hello\"\x7d"

/-- Second record of the scenario. -/
def lineWorld : Str := jstr "\x7b\"type\":\"item\",\"content\":\" world\"\x7d"

/-- Concrete parse table for the two scenario records. -/
def parseItems : Str → Option Json := fun s =>
  if s = lineHello then
    some (.obj [("type", .str "item"), ("content", .str "Hello")])
  else if s = lineWorld then
    some (.obj [("type", .str "item"), ("content", .str " world")])
  else none

/-- The scenario input split mid-record across two chunks. -/
def chunksSplit : List Str :=
  [jstr "\x7b\"type\":\"item\",\"content\":\"Hel",
   jstr "lo\"\x7d\n\x7b\"type\":\"item\",\"content\":\" world\"\x7d\n"]

/-- The same bytes delivered in a single chunk. -/
def chunksWhole : List Str :=
  [jstr "\x7b\"type\":\"item\",\"content\":\"Hello\"\x7d\n\x7b\"type\":\"item\",\"content\":\" world\"\x7d\n"]

example : transformStream parseItems chunksSplit = [jstr "Hello", jstr " world"] := by decide

/-- Witness for C1: the two concrete chunkings of the scenario bytes decode
to the same fragments. -/
theorem ndjson_chunking_invariance_witness :
    chunksSplit.flatten = chunksWhole.flatten ∧
      transformStream parseItems chunksSplit = transformStream parseItems chunksWhole :=
  ⟨by decide, ndjson_chunking_invariance parseItems chunksSplit chunksWhole (by decide)⟩

/-- C3: at end of stream, when the non-blank leftover buffer fails its final
parse attempt, it is emitted verbatim exactly when no fragment was extracted
anywhere earlier in the response; otherwise it is dropped (only logged). -/
theorem ndjson_leftover_fallback (parse : Str → Option Json) (chunks : List Str)
    (h1 : isBlank (feedAll parse chunks).buffer = false)
    (h2 : attemptLine parse (feedAll parse chunks).buffer = none) :
    transformStream parse chunks =
      (feedAll parse chunks).out ++
        (if (feedAll parse chunks).out.isEmpty then [(feedAll parse chunks).buffer] else []) := by
  unfold transformStream flushBuffer
  rw [h1, h2]
  simp only [Bool.false_eq_true, if_false]
  rw [feedAll_flag_out parse chunks]
  by_cases hout : (feedAll parse chunks).out.isEmpty
  · simp [hout]
  · simp [hout]

/-- Parse table modelling a backend body that is not valid JSON anywhere. -/
def parseNone : Str → Option Json := fun _ => none

/-- A single-chunk non-JSON body. -/
def chunksJunk : List Str := [jstr "plain text reply"]

/-- Witness for C3: a non-JSON single body with no extracted fragments is
emitted verbatim at end of stream. -/
theorem ndjson_leftover_fallback_witness :
    isBlank (feedAll parseNone chunksJunk).buffer = false ∧
      attemptLine parseNone (feedAll parseNone chunksJunk).buffer = none ∧
      transformStream parseNone chunksJunk =
        (feedAll parseNone chunksJunk).out ++
          (if (feedAll parseNone chunksJunk).out.isEmpty
            then [(feedAll parseNone chunksJunk).buffer] else []) :=
  ⟨by decide, by decide,
    ndjson_leftover_fallback parseNone chunksJunk (by decide) (by decide)⟩

end WebhookProvider

namespace LangGraphProvider

/-- Mutable state of the SSE transform loop of
`LangGraphProvider.transformStream`. -/
structure SSEState where
  buffer : Str
  currentEvent : Str
  dataLines : List Str
  detectedVersion : Option Json
  out : List Str

/-- Remove a `data: ` or `data:` marker from one payload line. -/
def stripData (line : Str) : Str :=
  if strStarts (jstr "data: ") line then line.drop 6
  else if strStarts (jstr "data:") line then line.drop 5
  else line

/-- `lines.join("\n")`. -/
def joinNl : List Str → Str
  | [] => []
  | [x] => x
  | x :: y :: ys => x ++ '\n' :: joinNl (y :: ys)

/-- `data[1]?.langgraph_version` when truthy: the opportunistic
protocol-version marker probe. -/
def versionMarker (data : Json) : Option Json :=
  match getElem? data 1 with
  | some (.null) => none
  | some meta => truthyProp meta "langgraph_version"
  | none => none

/-- `data[0]?.content` when truthy: the content probe of a decoded
messages event payload. -/
def contentOf (data : Json) : Option Json :=
  match getElem? data 0 with
  | some (.null) => none
  | some first => truthyProp first "content"
  | none => none

/-- `processEvent` of `LangGraphProvider.transformStream`: events whose
name does not start with a messages marker return immediately; otherwise
the joined payload is parsed, the version marker recorded once, and truthy
content re-encoded and enqueued. -/
def processEvent (parse : Str → Option Json) (eventType : Str) (dataLines : List Str)
    (st : SSEState) : SSEState :=
  if strStarts (jstr "messages|") eventType = false then st
  else
    match parse (joinNl (dataLines.map stripData)) with
    | none => st
    | some data =>
        let st1 :=
          match (if st.detectedVersion.isNone then versionMarker data else none) with
          | some ver => { st with detectedVersion := some ver }
          | none => st
        match contentOf data with
        | some content => { st1 with out := st1.out ++ [jsToString content] }
        | none => st1

/-- Body of the per-line loop: an `event:` line flushes any pending event
and opens a new one, `data:` lines accumulate, an `id:` line flushes and
closes the current event, every other line is ignored. -/
def processSSELine (parse : Str → Option Json) (st : SSEState) (line : Str) : SSEState :=
  if strStarts (jstr "event: ") line then
    let st1 :=
      if !st.currentEvent.isEmpty && !st.dataLines.isEmpty then
        processEvent parse st.currentEvent st.dataLines st
      else st
    { st1 with currentEvent := jsTrim (line.drop 7), dataLines := [] }
  else if strStarts (jstr "data:") line then
    { st with dataLines := st.dataLines ++ [line] }
  else if strStarts (jstr "id:") line then
    let st1 :=
      if !st.currentEvent.isEmpty && !st.dataLines.isEmpty then
        processEvent parse st.currentEvent st.dataLines st
      else st
    { st1 with currentEvent := [], dataLines := [] }
  else st

/-- One iteration of the read loop: buffer the chunk, split on newlines,
keep the incomplete last line and process the complete ones. -/
def feedSSEChunk (parse : Str → Option Json) (st : SSEState) (chunk : Str) : SSEState :=
  let parts := splitNl (st.buffer ++ chunk)
  { parts.dropLast.foldl (processSSELine parse) st with buffer := lastPart parts }

/-- Loop state at stream start. -/
def sseInit : SSEState := ⟨[], [], [], none, []⟩

/-- End-of-stream step: flush a pending event with accumulated data. -/
def sseFinal (parse : Str → Option Json) (st : SSEState) : SSEState :=
  if !st.currentEvent.isEmpty && !st.dataLines.isEmpty then
    processEvent parse st.currentEvent st.dataLines st
  else st

/-- Final loop state of `LangGraphProvider.transformStream` on a full
chunked response. -/
def sseRun (parse : Str → Option Json) (chunks : List Str) : SSEState :=
  sseFinal parse (chunks.foldl (feedSSEChunk parse) sseInit)

/-- The emitted plain-text fragments of the SSE transform. -/
def transformStream (parse : Str → Option Json) (chunks : List Str) : List Str :=
  (sseRun parse chunks).out

/-- Payload of the recognized messages event in the concrete scenario. -/
def payloadMsg : Str := jstr "[\x7b\"content\":\"Hi\"\x7d,\x7b\x7d]"

/-- Payload of the unrelated event; it carries a version marker. -/
def payloadVal : Str := jstr "[\x7b\x7d,\x7b\"langgraph_version\":\"0.2.74\"\x7d]"

/-- Parsed document of the unrelated event's payload. -/
def payloadValJson : Json :=
  .arr [.obj [], .obj [("langgraph_version", .str "0.2.74")]]

/-- Concrete parse table for the two scenario payloads. -/
def parseSSE : Str → Option Json := fun s =>
  if s = payloadMsg then some (.arr [.obj [("content", .str "Hi")], .obj []])
  else if s = payloadVal then some payloadValJson
  else none

/-- SSE scenario input: one recognized messages event, then one unrelated
event type carrying a version marker, closed by an id line. -/
def sseInput : Str :=
  jstr "event: messages|foo\ndata: [\x7b\"content\":\"Hi\"\x7d,\x7b\x7d]\nevent: values\ndata: [\x7b\x7d,\x7b\"langgraph_version\":\"0.2.74\"\x7d]\nid: 1\n"

/-- C4 counterexample: the unrelated event's payload does carry a truthy
version marker, yet after the run no version was detected (the event was
discarded before any parsing) — refuting that non-messages events are
parsed far enough to extract the protocol-version marker. The recognized
event's fragment is still the only output. -/
theorem sse_version_not_extracted_counterexample :
    versionMarker payloadValJson = some (.str "0.2.74") ∧
      (sseRun parseSSE [sseInput]).detectedVersion = none ∧
      (sseRun parseSSE [sseInput]).out = [jstr "Hi"] :=
  ⟨rfl, rfl, by decide⟩

/-- C4 amended: events whose name does not start with the messages marker
are discarded entirely — not parsed at all, not even for the
protocol-version marker — and yield no output; an input with one
recognized messages event followed by one unrelated event yields exactly
the recognized event's fragment. -/
theorem sse_only_messages_events_decoded (parse : Str → Option Json)
    (ev : Str) (dls : List Str) (st : SSEState)
    (h : strStarts (jstr "messages|") ev = false) :
    processEvent parse ev dls st = st ∧
      transformStream parseSSE [sseInput] = [jstr "Hi"] :=
  ⟨by simp [processEvent, h], by decide⟩

/-- Witness for the amended C4 theorem at a concrete unrelated event. -/
theorem sse_only_messages_events_decoded_witness :
    strStarts (jstr "messages|") (jstr "values") = false ∧
      (processEvent parseSSE (jstr "values") [jstr "data: x"] sseInit = sseInit ∧
        transformStream parseSSE [sseInput] = [jstr "Hi"]) :=
  ⟨by decide,
    sse_only_messages_events_decoded parseSSE (jstr "values") [jstr "data: x"] sseInit
      (by decide)⟩

end LangGraphProvider

namespace ChatWithPersistence

/-- The four literal texts matched by the integration-marker regex
(an optional backslash may precede each quote around true). -/
def markerPatterns : List Str :=
  [jstr "thesys=\"true\"", jstr "thesys=\\\"true\"",
   jstr "thesys=\"true\\\"", jstr "thesys=\\\"true\\\""]

/-- Regex test of the integration marker against accumulated content. -/
def hasMarker (t : Str) : Bool := markerPatterns.any fun p => containsSub p t

/-- The read loop of the wrapped stream: accumulate full content and latch
the marker flag as soon as the accumulated text matches. Returns the flag
at end of stream. -/
def markerScan (chunks : List Str) : Bool :=
  (chunks.foldl (fun acc c =>
      let fc := acc.1 ++ c
      (fc, acc.2 || hasMarker fc)) (([] : Str), false)).2

/-- The actionable remediation text of the invalid-response error. -/
def remediationDetails (isN8N : Bool) : String :=
  "Widget received invalid response format. " ++
    (if isN8N then "Please follow the integration steps in www.thesys.dev/n8n"
     else "Please check the documentation for integration")

/-- The serialized error thrown when the marker never appeared. -/
def invalidResponseError (isN8N : Bool) : Str :=
  jsonStringify (.obj [("message", .str "INVALID_RESPONSE_FORMAT"),
                       ("details", .str (remediationDetails isN8N))])

/-- How the wrapped stream terminates. -/
inductive WrapOutcome where
  | closed
  | errored (msg : Str)

/-- Observable effects of one run of the wrapped stream in
`ChatWithPersistence.processMessage`. -/
structure WrapResult where
  delivered : List Str
  fullContent : Str
  assistantSaveAttempted : Bool
  assistantSaveSucceeded : Bool
  onErrorCalled : Bool
  outcome : WrapOutcome

/-- The wrapped stream of `processMessage`: deliver every chunk downstream
while accumulating; at end of stream, a missing marker throws the
invalid-response error (handled by the error callback, erroring the
stream before any assistant save); otherwise the assistant message is
saved unless storage is agent-managed, and a save failure is only logged. -/
def processWrappedStream (isLangGraph isN8N saveOk : Bool) (chunks : List Str) : WrapResult :=
  if markerScan chunks = false then
    { delivered := chunks, fullContent := chunks.flatten,
      assistantSaveAttempted := false, assistantSaveSucceeded := false,
      onErrorCalled := true, outcome := .errored (invalidResponseError isN8N) }
  else if isLangGraph then
    { delivered := chunks, fullContent := chunks.flatten,
      assistantSaveAttempted := false, assistantSaveSucceeded := false,
      onErrorCalled := false, outcome := .closed }
  else
    { delivered := chunks, fullContent := chunks.flatten,
      assistantSaveAttempted := true, assistantSaveSucceeded := saveOk,
      onErrorCalled := false, outcome := .closed }

/-- C2: when the integration marker never appears in the accumulated text,
the wrapped stream errors at end of stream with the serialized
invalid-response error, whose text carries the remediation details, and
the assistant save is never reached. -/
theorem marker_absent_errors_no_persist (isLangGraph isN8N saveOk : Bool)
    (chunks : List Str) (h : markerScan chunks = false) :
    (processWrappedStream isLangGraph isN8N saveOk chunks).outcome =
        .errored (invalidResponseError isN8N) ∧
      (processWrappedStream isLangGraph isN8N saveOk chunks).assistantSaveAttempted = false ∧
      containsSub (jstr (remediationDetails isN8N)) (invalidResponseError isN8N) = true := by
  refine ⟨?_, ?_, ?_⟩
  · simp [processWrappedStream, h]
  · simp [processWrappedStream, h]
  · cases isN8N <;> decide

/-- A markerless streamed response. -/
def chunksNoMarker : List Str := [jstr "partial ", jstr "reply"]

/-- Witness for C2 at a concrete markerless response. -/
theorem marker_absent_errors_no_persist_witness :
    markerScan chunksNoMarker = false ∧
      ((processWrappedStream false true true chunksNoMarker).outcome =
          .errored (invalidResponseError true) ∧
        (processWrappedStream false true true chunksNoMarker).assistantSaveAttempted = false ∧
        containsSub (jstr (remediationDetails true)) (invalidResponseError true) = true) :=
  ⟨by decide, marker_absent_errors_no_persist false true true chunksNoMarker (by decide)⟩

/-- C9: when the marker is present and the post-stream assistant save
fails, the failure is swallowed: every chunk was delivered, the stream
still closes successfully, and the error callback is not invoked. -/
theorem save_failure_after_stream_swallowed (isN8N : Bool) (chunks : List Str)
    (h : markerScan chunks = true) :
    (processWrappedStream false isN8N false chunks).outcome = .closed ∧
      (processWrappedStream false isN8N false chunks).onErrorCalled = false ∧
      (processWrappedStream false isN8N false chunks).assistantSaveAttempted = true ∧
      (processWrappedStream false isN8N false chunks).assistantSaveSucceeded = false ∧
      (processWrappedStream false isN8N false chunks).delivered = chunks := by
  refine ⟨?_, ?_, ?_, ?_, ?_⟩ <;> simp [processWrappedStream, h]

/-- A streamed response that carries the integration marker. -/
def chunksWithMarker : List Str := [jstr "<card thesys=\"true\">", jstr "hello</card>"]

/-- Witness for C9 at a concrete marked response with a failing save. -/
theorem save_failure_after_stream_swallowed_witness :
    markerScan chunksWithMarker = true ∧
      ((processWrappedStream false false false chunksWithMarker).outcome = .closed ∧
        (processWrappedStream false false false chunksWithMarker).onErrorCalled = false ∧
        (processWrappedStream false false false chunksWithMarker).assistantSaveAttempted = true ∧
        (processWrappedStream false false false chunksWithMarker).assistantSaveSucceeded = false ∧
        (processWrappedStream false false false chunksWithMarker).delivered = chunksWithMarker) :=
  ⟨by decide, save_failure_after_stream_swallowed false chunksWithMarker (by decide)⟩

end ChatWithPersistence

/-- `Response.ok`: status in the 200-299 range. -/
def respOk (status : Nat) : Bool := 200 ≤ status && status < 300

theorem strStarts_self_append (p s : Str) : strStarts p (p ++ s) = true := by
  induction p with
  | nil => rfl
  | cons c cs ih => simp [strStarts, ih]

theorem containsSub_self_append (p s : Str) : containsSub p (p ++ s) = true := by
  cases p with
  | nil =>
      cases s with
      | nil => rfl
      | cons c cs => simp [containsSub, strStarts]
  | cons c cs =>
      simp only [List.cons_append, containsSub, Bool.or_eq_true]
      exact Or.inl (strStarts_self_append (c :: cs) s)

theorem containsSub_append_left (p x s : Str) (h : containsSub p s = true) :
    containsSub p (x ++ s) = true := by
  induction x with
  | nil => exact h
  | cons c cs ih => simp [containsSub, ih]

theorem containsSub_self (p : Str) : containsSub p p = true := by
  have h := containsSub_self_append p []
  rwa [List.append_nil] at h

namespace LangGraphProvider

/-- Error message built by `LangGraphProvider.sendMessage` for a non-success
HTTP status: the default carries the status and status text, but a parsed
body with a truthy `detail` (or else `message`) field replaces the whole
message with that field's coerced text. `errorBody = none` models a
rejected `response.json()`; a parsed `null` also lands in the default
branch because the property access throws inside the same try block. -/
def sendErrorMessage (status : Nat) (statusText : Str) (errorBody : Option Json) : Str :=
  let deflt := jstr "LangGraph error: " ++ (jstr (toString status) ++ ' ' :: statusText)
  match errorBody with
  | none => deflt
  | some .null => deflt
  | some body =>
      match truthyProp body "detail" with
      | some v => jstr "LangGraph error: " ++ jsToString v
      | none =>
          match truthyProp body "message" with
          | some v => jstr "LangGraph error: " ++ jsToString v
          | none => deflt

end LangGraphProvider

namespace WebhookProvider

/-- Error message built by `WebhookProvider.sendMessage` for a non-success
HTTP status: status and status text only, the body is never consulted. -/
def sendErrorMessage (status : Nat) (statusText : Str) : Str :=
  jstr "Webhook error: " ++ (jstr (toString status) ++ ' ' :: statusText)

end WebhookProvider

/-- C5 counterexample: with a parseable body carrying a `detail` field, the
graph-agent provider's error message is exactly the detail text without
the HTTP status, and the webhook provider's error message never carries
the body's detail text — refuting that every provider's message includes
the status and, when available, the body field's text. -/
theorem backend_error_message_counterexample :
    LangGraphProvider.sendErrorMessage 500 (jstr "Internal Server Error")
        (some (.obj [("detail", .str "boom")])) = jstr "LangGraph error: boom" ∧
      containsSub (jstr "500")
        (LangGraphProvider.sendErrorMessage 500 (jstr "Internal Server Error")
          (some (.obj [("detail", .str "boom")]))) = false ∧
      containsSub (jstr "boom")
        (WebhookProvider.sendErrorMessage 500 (jstr "Internal Server Error")) = false :=
  ⟨by decide, by decide, by decide⟩

/-- Case table of the amended C5 claim: the message text as a function of
the truthy detail and message probes — a truthy detail field's text, else
a truthy message field's text, else the status-bearing default. -/
def lgExpectedMessage (status : Nat) (statusText : Str) (d m : Option Json) : Str :=
  match d, m with
  | some v, _ => jstr "LangGraph error: " ++ jsToString v
  | none, some v => jstr "LangGraph error: " ++ jsToString v
  | none, none => LangGraphProvider.sendErrorMessage status statusText none

/-- The non-null reduction of the graph-agent error-message construction:
a truthy detail field replaces the message, else a truthy message field
does, else the default applies. -/
theorem lg_sendErrorMessage_some (status : Nat) (statusText : Str) (body : Json)
    (hb : body ≠ .null) :
    LangGraphProvider.sendErrorMessage status statusText (some body) =
      lgExpectedMessage status statusText
        (truthyProp body "detail") (truthyProp body "message") := by
  cases body with
  | null => exact absurd rfl hb
  | str s => rfl
  | num n => rfl
  | jbool b => rfl
  | arr es => rfl
  | obj fs =>
      cases h1 : truthyProp (Json.obj fs) "detail" with
      | some v => simp [LangGraphProvider.sendErrorMessage, lgExpectedMessage, h1]
      | none =>
          cases h2 : truthyProp (Json.obj fs) "message" with
          | some v => simp [LangGraphProvider.sendErrorMessage, lgExpectedMessage, h1, h2]
          | none => simp [LangGraphProvider.sendErrorMessage, lgExpectedMessage, h1, h2]

/-- C5 amended: on a non-success status the webhook provider's error
message carries the status and the status text and never any body field;
the graph-agent provider's message is replaced by only the text of a
truthy `detail` field, else of a truthy `message` field, and only when the
parsed body yields neither does it equal the default message, which
carries the status and the status text. -/
theorem backend_error_message_contents (status : Nat) (statusText : Str)
    (body : Json) (d m : Option Json) (hb : body ≠ .null)
    (hd : truthyProp body "detail" = d) (hm : truthyProp body "message" = m) :
    LangGraphProvider.sendErrorMessage status statusText (some body) =
        lgExpectedMessage status statusText d m ∧
      containsSub (jstr (toString status))
        (LangGraphProvider.sendErrorMessage status statusText none) = true ∧
      containsSub statusText
        (LangGraphProvider.sendErrorMessage status statusText none) = true ∧
      containsSub (jstr (toString status))
        (WebhookProvider.sendErrorMessage status statusText) = true ∧
      containsSub statusText
        (WebhookProvider.sendErrorMessage status statusText) = true := by
  refine ⟨?_, ?_, ?_, ?_, ?_⟩
  · rw [← hd, ← hm]
    exact lg_sendErrorMessage_some status statusText body hb
  · exact containsSub_append_left _ _ _ (containsSub_self_append _ _)
  · exact containsSub_append_left _ _ _ (containsSub_append_left _ _ _
      (containsSub_append_left _ [' '] _ (containsSub_self _)))
  · exact containsSub_append_left _ _ _ (containsSub_self_append _ _)
  · exact containsSub_append_left _ _ _ (containsSub_append_left _ _ _
      (containsSub_append_left _ [' '] _ (containsSub_self _)))

namespace WebhookProvider

/-- A fetched webhook response: status, status text, the Content-Type
header value (empty when absent) and the body as the chunk sequence a
stream reader would observe (`none` models a null body). -/
structure WResponse where
  status : Nat
  statusText : Str
  contentType : Str
  body : Option (List Str)

/-- The whole body as text, as read by `clonedResponse.json()`. -/
def bodyText (r : WResponse) : Str := (r.body.getD []).flatten

/-- The streaming tail of `sendMessage`: a null body throws, otherwise the
body goes through the NDJSON transform. -/
def streamBody (parse : Str → Option Json) (r : WResponse) : Except Str (List Str) :=
  match r.body with
  | none => .error (jstr "Response body is null")
  | some chunks => .ok (transformStream parse chunks)

/-- The catch branch of the non-streaming path: with no body available the
parse failure is rethrown, otherwise the response falls back to the
streaming transform. (The source appends the caught exception's text to
this message; the model keeps the fixed prefix.) -/
def fallbackStream (parse : Str → Option Json) (r : WResponse) : Except Str (List Str) :=
  match r.body with
  | none => .error (jstr "Failed to parse response as JSON and no body available")
  | some chunks => .ok (transformStream parse chunks)

/-- `WebhookProvider.sendMessage` after the fetch resolved: classify the
status, decide streaming from the explicit flag or the Content-Type, and
in the non-streaming case answer with the truthy `output` or `message`
field or the re-serialized document, falling back to the stream transform
when JSON parsing throws (a parsed `null` document also throws, on its
property access). The result is the ordered chunk list of the returned
response body. -/
def sendMessage (parse : Str → Option Json) (enableStreaming : Bool) (r : WResponse) :
    Except Str (List Str) :=
  if respOk r.status = false then
    .error (sendErrorMessage r.status r.statusText)
  else
    let isStreamContentType :=
      containsSub (jstr "text/event-stream") r.contentType ||
        containsSub (jstr "application/x-ndjson") r.contentType
    let shouldStream := enableStreaming || isStreamContentType
    if shouldStream = false then
      match parse (bodyText r) with
      | some .null => fallbackStream parse r
      | some data =>
          match truthyProp data "output" with
          | some v => .ok [jsToString v]
          | none =>
              match truthyProp data "message" with
              | some v => .ok [jsToString v]
              | none => .ok [jsonStringify data]
      | none => fallbackStream parse r
    else streamBody parse r

/-- Body of the concrete non-streaming scenario. -/
def bodyHi : Str := jstr "\x7b\"output\":\"hi\"\x7d"

/-- Parse table for the concrete non-streaming scenario. -/
def parseHi : Str → Option Json := fun s =>
  if s = bodyHi then some (.obj [("output", .str "hi")]) else none

/-- C8: a webhook configured without the streaming flag answering with
Content-Type application/json and a JSON body with output hi yields
exactly the single plain-text body hi, with no streaming fragmentation. -/
theorem nonstreaming_json_output (parse : Str → Option Json)
    (h : parse bodyHi = some (.obj [("output", .str "hi")])) :
    sendMessage parse false ⟨200, jstr "OK", jstr "application/json", some [bodyHi]⟩ =
      .ok [jstr "hi"] := by
  have hb : bodyText ⟨200, jstr "OK", jstr "application/json", some [bodyHi]⟩ = bodyHi := by
    simp [bodyText]
  unfold sendMessage
  rw [hb, h]
  rfl

/-- Witness for C8 with the concrete parse table. -/
theorem nonstreaming_json_output_witness :
    parseHi bodyHi = some (.obj [("output", .str "hi")]) ∧
      sendMessage parseHi false ⟨200, jstr "OK", jstr "application/json", some [bodyHi]⟩ =
        .ok [jstr "hi"] :=
  ⟨rfl, nonstreaming_json_output parseHi rfl⟩

/-- Document of the C10 counterexample: a numeric output field. -/
def docOut5 : Json := .obj [("output", .num 5)]

/-- Body text of the C10 counterexample. -/
def bodyOut5 : Str := jstr "\x7b\"output\":5\x7d"

/-- Parse table of the C10 counterexample. -/
def parseOut5 : Str → Option Json := fun s =>
  if s = bodyOut5 then some docOut5 else none

/-- C10 counterexample: the document has no string-valued output or
message field (its output is the number 5), yet the non-streaming path
answers with the coerced field text rather than the serialization of the
whole document — the guard is truthiness, not string-ness. -/
theorem nonstreaming_stringify_counterexample :
    getProp docOut5 "output" = some (.num 5) ∧
      getProp docOut5 "message" = none ∧
      sendMessage parseOut5 false ⟨200, jstr "OK", jstr "application/json", some [bodyOut5]⟩ =
        .ok [jstr "5"] ∧
      jstr "5" ≠ jsonStringify docOut5 :=
  ⟨rfl, rfl, rfl, by decide⟩

/-- C10 amended: in the non-streaming path, when the parsed document is
not null and has neither a truthy output field nor a truthy message field
(in particular, when neither exists as a non-empty string), the answer is
the serialization of the entire document — not an error and not empty. -/
theorem nonstreaming_stringify_fallback (parse : Str → Option Json) (r : WResponse)
    (data : Json)
    (h1 : respOk r.status = true)
    (h2 : containsSub (jstr "text/event-stream") r.contentType = false)
    (h3 : containsSub (jstr "application/x-ndjson") r.contentType = false)
    (h4 : parse (bodyText r) = some data)
    (h5 : data ≠ .null)
    (h6 : truthyProp data "output" = none)
    (h7 : truthyProp data "message" = none) :
    sendMessage parse false r = .ok [jsonStringify data] := by
  unfold sendMessage
  rw [h1, h2, h3, h4]
  cases data with
  | null => exact absurd rfl h5
  | str s => simp [h6, h7]
  | num n => simp [h6, h7]
  | jbool b => simp [h6, h7]
  | arr es => simp [h6, h7]
  | obj fs => simp [h6, h7]

/-- Document of the amended C10 witness. -/
def docA1 : Json := .obj [("a", .num 1)]

/-- Body text of the amended C10 witness. -/
def bodyA1 : Str := jstr "\x7b\"a\":1\x7d"

/-- Parse table of the amended C10 witness. -/
def parseA1 : Str → Option Json := fun s =>
  if s = bodyA1 then some docA1 else none

/-- Witness for the amended C10 theorem at a concrete document without
output or message fields. -/
theorem nonstreaming_stringify_fallback_witness :
    respOk 200 = true ∧
      parseA1 (bodyText ⟨200, jstr "OK", jstr "application/json", some [bodyA1]⟩) =
        some docA1 ∧
      truthyProp docA1 "output" = none ∧
      truthyProp docA1 "message" = none ∧
      sendMessage parseA1 false ⟨200, jstr "OK", jstr "application/json", some [bodyA1]⟩ =
        .ok [jsonStringify docA1] :=
  ⟨rfl, rfl, rfl, rfl,
    nonstreaming_stringify_fallback parseA1
      ⟨200, jstr "OK", jstr "application/json", some [bodyA1]⟩ docA1
      rfl (by decide) (by decide) rfl (fun h => Json.noConfusion h) rfl rfl⟩

end WebhookProvider

namespace LangGraphStorageAdapter

/-- Outcome of one fetch round trip against the thread store: a transport
failure, or a response with its status and the JSON parse of its body
(`none` models a body `res.json()` rejects on). -/
inductive Fetched where
  | netErr
  | resp (status : Nat) (body : Option Json)

/-- Optional chaining `v?.k` on an optional JSON value: undefined and null
short-circuit to undefined. -/
def optChainProp (v : Option Json) (k : String) : Option Json :=
  match v with
  | none => none
  | some .null => none
  | some w => getProp w k

/-- Role mapping of `LangGraphStorageAdapter.mapMessageType`: the string
human maps to user, everything else (ai, system, non-strings) to
assistant. -/
inductive Role where
  | user
  | assistant

/-- The string switch of `mapMessageType`. -/
def mapMessageType (t : Option Json) : Role :=
  match t with
  | some (.str s) => if s = "human" then .user else .assistant
  | _ => .assistant

/-- A mapped message in the uniform shape. -/
structure Msg where
  id : Option Json
  role : Role
  content : Str

/-- Text of the filtered and joined content blocks of
`LangGraphStorageAdapter.extractContent`: keep blocks whose type is the
string text with truthy text, coerce and join. A null block throws
(`Except.error`), as its property access does in the source. -/
def blocksText : List Json → Except Str Str
  | [] => .ok []
  | .null :: _ => .error (jstr "TypeError: block is null")
  | b :: rest =>
      match blocksText rest with
      | .error e => .error e
      | .ok restText =>
          match getProp b "type" with
          | some (.str t) =>
              if t = "text" then
                match truthyProp b "text" with
                | some v => .ok (jsToString v ++ restText)
                | none => .ok restText
              else .ok restText
          | _ => .ok restText

/-- `LangGraphStorageAdapter.extractContent`: strings pass through, block
arrays are filtered and joined; any other shape (including an absent
content property) throws on its array-method call. -/
def extractContent (c : Option Json) : Except Str Str :=
  match c with
  | some (.str s) => .ok s.data
  | some (.arr blocks) => blocksText blocks
  | _ => .error (jstr "TypeError: content.filter is not a function")

/-- Map one history message, throwing on a null element. -/
def mapMsg : Json → Except Str Msg
  | .null => .error (jstr "TypeError: message is null")
  | m =>
      match extractContent (getProp m "content") with
      | .ok c => .ok { id := getProp m "id", role := mapMessageType (getProp m "type"), content := c }
      | .error e => .error e

/-- Map the history message list, propagating the first thrown error. -/
def mapMsgList : List Json → Except Str (List Msg)
  | [] => .ok []
  | m :: rest =>
      match mapMsg m with
      | .error e => .error e
      | .ok msg =>
          match mapMsgList rest with
          | .error e => .error e
          | .ok more => .ok (msg :: more)

/-- The try block of `LangGraphStorageAdapter.getThread`: 404 answers null
directly, any other non-success status throws, then the latest history
entry's messages are mapped; an absent or falsy messages chain answers the
empty list. (The history body is taken as a JSON array, per the API
contract the source types assume.) -/
def getThreadBody (r : Fetched) : Except Str (Option (List Msg)) :=
  match r with
  | .netErr => .error (jstr "network error")
  | .resp status body =>
      if respOk status = false then
        if status = 404 then .ok none
        else .error (jstr "Failed to fetch thread: " ++ jstr (toString status))
      else
        match body with
        | none => .error (jstr "SyntaxError: body is not JSON")
        | some history =>
            match optChainProp (optChainProp (getElem? history 0) "values") "messages" with
            | none => .ok (some [])
            | some v =>
                if jsTruthy v = false then .ok (some [])
                else
                  match v with
                  | .arr msgs =>
                      match mapMsgList msgs with
                      | .ok list => .ok (some list)
                      | .error e => .error e
                  | _ => .error (jstr "TypeError: messages.map is not a function")

/-- `LangGraphStorageAdapter.getThread`: every thrown error is caught,
logged and converted to null. -/
def getThread (r : Fetched) : Option (List Msg) :=
  match getThreadBody r with
  | .ok v => v
  | .error _ => none

/-- Title defaulting of the thread-list mapping:
`(t.metadata?.title as string) || "New Chat"`. -/
def threadTitle (t : Json) : Json :=
  match optChainProp (getProp t "metadata") "title" with
  | some v => if jsTruthy v then v else .str "New Chat"
  | none => .str "New Chat"

/-- A mapped thread in the uniform shape (`createdAt` keeps the raw value
handed to the Date constructor). -/
structure Thread where
  threadId : Option Json
  title : Json
  createdAt : Option Json
  isRunning : Bool

/-- Map one thread-list element, throwing on a null element. -/
def mapThread : Json → Except Str Thread
  | .null => .error (jstr "TypeError: thread is null")
  | t => .ok { threadId := getProp t "thread_id", title := threadTitle t,
               createdAt := getProp t "created_at", isRunning := false }

/-- Map the fetched thread-list array, propagating the first thrown
error. -/
def mapThreadList : List Json → Except Str (List Thread)
  | [] => .ok []
  | t :: rest =>
      match mapThread t with
      | .error e => .error e
      | .ok th =>
          match mapThreadList rest with
          | .error e => .error e
          | .ok more => .ok (th :: more)

/-- The try block of `LangGraphStorageAdapter.getThreadList`: a non-success
status throws, then the JSON body is mapped as a thread array (a non-array
body throws on its `.map` call). -/
def getThreadListBody (r : Fetched) : Except Str (List Thread) :=
  match r with
  | .netErr => .error (jstr "network error")
  | .resp status body =>
      if respOk status = false then
        .error (jstr "Failed to fetch threads: " ++ jstr (toString status))
      else
        match body with
        | none => .error (jstr "SyntaxError: body is not JSON")
        | some (.arr ts) => mapThreadList ts
        | some _ => .error (jstr "TypeError: threads.map is not a function")

/-- `LangGraphStorageAdapter.getThreadList`: every thrown error is caught,
logged and converted to the empty list. -/
def getThreadList (r : Fetched) : List Thread :=
  match getThreadListBody r with
  | .ok ts => ts
  | .error _ => []

/-- C6 counterexample: a transport failure during the user-initiated list
and load operations is not surfaced — the adapter answers the ordinary
empty list (and null), indistinguishable from success. -/
theorem storage_failure_swallowed_counterexample :
    getThreadList .netErr = [] ∧ getThread .netErr = none :=
  ⟨rfl, rfl⟩

/-- C6 amended: a storage failure during getThreadList or getThread (a
transport error or a non-success status) is caught and converted into a
successful empty result — the empty thread list, or null — rather than
surfaced to the caller; only delete and update operations rethrow. -/
theorem storage_failure_swallowed (r : Fetched)
    (h : r = .netErr ∨ ∃ status body, r = .resp status body ∧ respOk status = false) :
    getThreadList r = [] ∧ getThread r = none := by
  rcases h with h | ⟨status, body, hr, hs⟩
  · subst h
    exact ⟨rfl, rfl⟩
  · subst hr
    constructor
    · simp [getThreadList, getThreadListBody, hs]
    · by_cases h404 : status = 404
      · subst h404
        simp [getThread, getThreadBody, respOk]
      · simp [getThread, getThreadBody, hs, h404]

/-- Witness for the amended C6 theorem at a concrete failing status. -/
theorem storage_failure_swallowed_witness :
    (Fetched.resp 500 none = .netErr ∨
        ∃ status body, Fetched.resp 500 none = .resp status body ∧ respOk status = false) ∧
      (getThreadList (.resp 500 none) = [] ∧ getThread (.resp 500 none) = none) :=
  ⟨Or.inr ⟨500, none, rfl, by decide⟩,
    storage_failure_swallowed (.resp 500 none) (Or.inr ⟨500, none, rfl, by decide⟩)⟩

/-- History body of a known thread whose latest snapshot has no
messages. -/
def emptyHistory : Json := .arr [.obj [("values", .obj [("messages", .arr [])])]]

/-- C7: getThread answers null for an unknown thread id (any 404 history
response, whatever its body) and the empty list — not null — for a known
thread whose latest history snapshot contains no messages. -/
theorem getThread_unknown_vs_empty (b : Option Json) :
    getThread (.resp 404 b) = none ∧
      getThread (.resp 200 (some emptyHistory)) = some [] := by
  constructor
  · simp [getThread, getThreadBody, respOk]
  · rfl

/-- Witness for C7 at a concrete 404 body. -/
theorem getThread_unknown_vs_empty_witness :
    getThread (.resp 404 none) = none ∧
      getThread (.resp 200 (some emptyHistory)) = some [] :=
  getThread_unknown_vs_empty none

end LangGraphStorageAdapter

/-- Witness for the amended C5 theorem at a concrete error response with a
truthy detail field. -/
theorem backend_error_message_contents_witness :
    (Json.obj [("detail", Json.str "nope")] ≠ Json.null) ∧
      truthyProp (Json.obj [("detail", Json.str "nope")]) "detail" = some (Json.str "nope") ∧
      truthyProp (Json.obj [("detail", Json.str "nope")]) "message" = none ∧
      (LangGraphProvider.sendErrorMessage 404 (jstr "Not Found")
            (some (.obj [("detail", .str "nope")])) =
          jstr "LangGraph error: " ++ jsToString (.str "nope") ∧
        containsSub (jstr (toString 404))
          (LangGraphProvider.sendErrorMessage 404 (jstr "Not Found") none) = true ∧
        containsSub (jstr "Not Found")
          (LangGraphProvider.sendErrorMessage 404 (jstr "Not Found") none) = true ∧
        containsSub (jstr (toString 404))
          (WebhookProvider.sendErrorMessage 404 (jstr "Not Found")) = true ∧
        containsSub (jstr "Not Found")
          (WebhookProvider.sendErrorMessage 404 (jstr "Not Found")) = true) :=
  ⟨fun h => Json.noConfusion h, rfl, rfl,
    backend_error_message_contents 404 (jstr "Not Found")
      (.obj [("detail", .str "nope")]) (some (.str "nope")) none
      (fun h => Json.noConfusion h) rfl rfl⟩

end GenUI
